import Mathlib

/-!
Verification of `notion_tools.py` (patchbio/notion-tools).

The Python module converts paginated Notion API records into flat tabular
data.  We shallowly embed the dynamically-typed Python values the code
manipulates as the inductive `PyVal`, Python exceptions as `PyErr`, and
translate each function of the source file into a Lean definition of the
same name.  External collaborators (the `pandas` and `notion_client`
libraries) are modelled only through the narrow interface the source uses:
`pd.Timestamp` as an opaque tagging constructor (with `None ↦ NaT`),
`pd.DataFrame` as a first-seen union of record keys with a missing-value
marker, and the Notion client as the sequence of responses its successive
query calls return.
-/

namespace NotionTools

/-- Python runtime values, restricted to the shapes `notion_tools.py`
manipulates: JSON-like data plus the tuples and timestamps it creates.
`timestamp t` models a `pd.Timestamp`: `timestamp (some s)` is the (opaque,
unevaluated) parse of the string `s`, and `timestamp none` is `pd.NaT`
(the null timestamp `pd.Timestamp(None)` evaluates to). -/
inductive PyVal where
  | none
  | bool (b : Bool)
  | int (n : Int)
  | str (s : String)
  | timestamp (t : Option String)
  | tuple2 (a b : PyVal)
  | list (xs : List PyVal)
  | dict (entries : List (String × PyVal))
deriving Repr

/-- Python exceptions raised by the embedded code. -/
inductive PyErr where
  | valueError (msg : String)
  | keyError (k : String)
  | typeError (msg : String)
  | indexError
deriving Repr, DecidableEq

/-- First-match association-list lookup; Python dicts have unique keys, so
on faithfully-built dicts this is exactly `d[k]` lookup. -/
def lookupEntries {α : Type} : List (String × α) → String → Option α
  | [], _ => Option.none
  | (k, v) :: rest, key => if k = key then some v else lookupEntries rest key

/-- Python `d[k]` on a (string-keyed) dict: `KeyError` when the key is
absent, `TypeError` when the value is not a dict. -/
def dictGetE (d : PyVal) (k : String) : Except PyErr PyVal :=
  match d with
  | .dict entries =>
    match lookupEntries entries k with
    | some v => .ok v
    | Option.none => .error (.keyError k)
  | _ => .error (.typeError "object is not subscriptable")

/-- Python `d[k]` where the key is itself a Python value; the dicts this
code receives are string-keyed, so a non-string key is never present. -/
def subscriptE (d : PyVal) (k : PyVal) : Except PyErr PyVal :=
  match k with
  | .str s => dictGetE d s
  | _ => .error (.keyError "non-string key")

/-- Python `d.get(k)` on a dict: `None` when absent. -/
def dictGetOptE (d : PyVal) (k : String) : Except PyErr PyVal :=
  match d with
  | .dict entries => .ok ((lookupEntries entries k).getD PyVal.none)
  | _ => .error (.typeError "object has no attribute get")

/-- A value used where Python requires a `str`. -/
def asStrE (v : PyVal) : Except PyErr String :=
  match v with
  | .str s => .ok s
  | _ => .error (.typeError "expected str")

/-- Iteration `for x in obj`: the payloads this code iterates are JSON
arrays, modelled as `.list`. -/
def asListE (v : PyVal) : Except PyErr (List PyVal) :=
  match v with
  | .list xs => .ok xs
  | _ => .error (.typeError "object is not iterable")

/-- Python `t[i]` indexing on the values this code indexes (the 2-tuples
built for date properties); `None[i]` is a `TypeError`. -/
def tupleIndex (v : PyVal) (i : Nat) : Except PyErr PyVal :=
  match v, i with
  | .tuple2 a _, 0 => .ok a
  | .tuple2 _ b, 1 => .ok b
  | .tuple2 _ _, _ => .error .indexError
  | .list xs, i =>
    match xs.get? i with
    | some x => .ok x
    | Option.none => .error .indexError
  | .none, _ => .error (.typeError "NoneType is not subscriptable")
  | _, _ => .error (.typeError "object is not subscriptable")

/-- `pd.Timestamp(x)` for the inputs the source applies it to: a string
(parsed; modelled opaquely by tagging the string) or `None` (gives `NaT`,
the null timestamp).  Parse failures of the external parser are not
modelled.  Other inputs do not occur in this code. -/
def pdTimestamp (v : PyVal) : PyVal :=
  match v with
  | .none => .timestamp Option.none
  | .str s => .timestamp (some s)
  | .timestamp t => .timestamp t
  | _ => .timestamp Option.none

/-- Python `bool(x)` truthiness on the embedded values. -/
def pyBool (v : PyVal) : Bool :=
  match v with
  | .none => false
  | .bool b => b
  | .int n => n != 0
  | .str s => s ≠ ""
  | .timestamp _ => true
  | .tuple2 _ _ => true
  | .list xs => !xs.isEmpty
  | .dict es => !es.isEmpty

/-- Python `x is None`. -/
def isNone : PyVal → Bool
  | .none => true
  | _ => false

/-- A Python list comprehension `[f x for x in xs]` over fallible `f`:
elements in order, the first exception propagates. -/
def mapExcept {α β : Type} (f : α → Except PyErr β) : List α → Except PyErr (List β)
  | [] => .ok []
  | x :: xs =>
    match f x with
    | .error e => .error e
    | .ok y =>
      match mapExcept f xs with
      | .error e => .error e
      | .ok ys => .ok (y :: ys)

/-- `[x["name"] for x in xs if "name" in x]`: entries lacking a name are
silently skipped. -/
def filterNames : List PyVal → Except PyErr (List PyVal)
  | [] => .ok []
  | x :: xs =>
    match x with
    | .dict es =>
      match lookupEntries es "name" with
      | some v => (filterNames xs).map (fun ys => v :: ys)
      | Option.none => filterNames xs
    | _ => .error (.typeError "argument of type is not iterable")

/-- One file element: `x[x["type"]]["url"]`. -/
def fileUrl (x : PyVal) : Except PyErr PyVal :=
  match dictGetE x "type" with
  | .error e => .error e
  | .ok t =>
    match subscriptE x t with
    | .error e => .error e
    | .ok sub => dictGetE sub "url"

/-- One text run: `x["plain_text"].strip()`. -/
def plainTextRun (x : PyVal) : Except PyErr String :=
  match dictGetE x "plain_text" with
  | .error e => .error e
  | .ok p => (asStrE p).map String.trim

/-- The body of `_simplify_notion_property_value`, with the recursive
occurrence (rollup array elements) abstracted as `rec`.  This mirrors the
source's `if`/`elif` chain on `type_ = value["type"]` over
`obj = value[type_]`, including the `obj is None` check that precedes the
type dispatch. -/
def simplifyStep (rec : PyVal → Except PyErr PyVal) (value : PyVal) :
    Except PyErr PyVal :=
  match dictGetE value "type" with
  | .error e => .error e
  | .ok tv =>
  match asStrE tv with
  | .error e => .error e
  | .ok type_ =>
  match dictGetE value type_ with
  | .error e => .error e
  | .ok obj =>
  if isNone obj then .ok obj
  else if type_ = "url" then .ok obj
  else if type_ = "email" then .ok obj
  else if type_ = "phone_number" then .ok obj
  else if type_ = "number" then .ok obj
  else if type_ = "created_time" then .ok obj
  else if type_ = "last_edited_time" then .ok obj
  else if type_ = "relation" then
    match asListE obj with
    | .error e => .error e
    | .ok vs => (mapExcept (fun v => dictGetE v "id") vs).map PyVal.list
  else if type_ = "checkbox" then .ok (.bool (pyBool obj))
  else if type_ = "date" then
    match dictGetE obj "start" with
    | .error e => .error e
    | .ok s =>
      match dictGetE obj "end" with
      | .error e => .error e
      | .ok en => .ok (.tuple2 (pdTimestamp s) (pdTimestamp en))
  else if type_ = "created_by" then dictGetE obj "name"
  else if type_ = "last_edited_by" then dictGetOptE obj "name"
  else if type_ = "select" then dictGetE obj "name"
  else if type_ = "multi_select" then
    match asListE obj with
    | .error e => .error e
    | .ok vs => (mapExcept (fun x => dictGetE x "name") vs).map PyVal.list
  else if type_ = "people" then
    match asListE obj with
    | .error e => .error e
    | .ok vs => (filterNames vs).map PyVal.list
  else if type_ = "files" then
    match asListE obj with
    | .error e => .error e
    | .ok vs => (mapExcept fileUrl vs).map PyVal.list
  else if type_ = "title" then
    match asListE obj with
    | .error e => .error e
    | .ok vs =>
      (mapExcept plainTextRun vs).map (fun ss => .str (String.intercalate " " ss))
  else if type_ = "rich_text" then
    match asListE obj with
    | .error e => .error e
    | .ok vs =>
      (mapExcept plainTextRun vs).map (fun ss => .str (String.intercalate " " ss))
  else if type_ = "formula" then
    match dictGetE obj "type" with
    | .error e => .error e
    | .ok it => subscriptE obj it
  else if type_ = "rollup" then
    match dictGetE obj "type" with
    | .error e => .error e
    | .ok rt =>
      match rt with
      | .str s =>
        if s = "array" then
          match dictGetE obj "array" with
          | .error e => .error e
          | .ok arr =>
            match arr with
            | .list xs => (mapExcept rec xs).map PyVal.list
            | _ => .error (.typeError "object is not iterable")
        else dictGetE obj s
      | _ => .error (.keyError "non-string key")
  else .error (.valueError ("I don't understand type " ++ type_))

mutual

/-- Structural size of a `PyVal`, used as the fuel bound for the recursive
normalizer. -/
def psize : PyVal → Nat
  | .none => 1
  | .bool _ => 1
  | .int _ => 1
  | .str _ => 1
  | .timestamp _ => 1
  | .tuple2 a b => psize a + psize b + 1
  | .list xs => psizeList xs + 1
  | .dict es => psizeEntries es + 1

/-- Size of a list of values. -/
def psizeList : List PyVal → Nat
  | [] => 0
  | x :: xs => psize x + psizeList xs + 1

/-- Size of a dict's entry list. -/
def psizeEntries : List (String × PyVal) → Nat
  | [] => 0
  | (_, v) :: es => psize v + psizeEntries es + 1

end

/-- Fuel-indexed recursive closure of `simplifyStep`; the fuel is
irrelevant once it exceeds the value's size (proved below), so
`_simplify_notion_property_value` is its fixpoint. -/
def simplifyF : Nat → PyVal → Except PyErr PyVal
  | 0, _ => .error (.valueError "recursion limit exceeded")
  | fuel + 1, value => simplifyStep (simplifyF fuel) value

/-- `_simplify_notion_property_value`: convert a Notion property value to a
simple/primitive value; `date` types return a 2-tuple of (start, end)
timestamps. -/
def _simplify_notion_property_value (value : PyVal) : Except PyErr PyVal :=
  simplifyF (psize value) value

/-- A key of the flat record `_page_to_simple_dict` builds: Python uses a
plain string or, under the multiindex date policy, a (name, sub-label)
2-tuple. -/
inductive ColKey where
  | name (s : String)
  | pair (a b : String)
deriving Repr, DecidableEq

/-- A flat record: a Python dict from column keys to values, in insertion
order. -/
abbrev Record := List (ColKey × PyVal)

/-- Python dict assignment `record[k] = v`: overwrite in place when the key
exists, else append (insertion order preserved). -/
def recInsert (r : Record) (k : ColKey) (v : PyVal) : Record :=
  if k ∈ r.map Prod.fst then
    r.map (fun p => if p.1 = k then (k, v) else p)
  else r ++ [(k, v)]

/-- Lookup in a flat record. -/
def recLookup (r : Record) (k : ColKey) : Option PyVal :=
  match r with
  | [] => Option.none
  | (k2, v) :: rest => if k2 = k then some v else recLookup rest k

/-- The date-handler resolution `date_handlers.get(property, default_date_handler)`:
the per-name override takes precedence, else the default. -/
def resolveDateHandler (date_handlers : List (String × String))
    (property default_date_handler : String) : String :=
  (lookupEntries date_handlers property).getD default_date_handler

/-- One iteration of the property loop of `_page_to_simple_dict`:
normalize the value; a `date`-typed property branches on the resolved
handler string (emitting one key for `ignore_end`, two mangled names for
`mangle`, two tuple keys for `multiindex`, and nothing for any other
string); any other type emits the property name with the normalized
value. -/
def processProp (default_date_handler : String)
    (date_handlers : List (String × String)) (r : Record)
    (nameVal : String × PyVal) : Except PyErr Record :=
  match _simplify_notion_property_value nameVal.2 with
  | .error e => .error e
  | .ok extracted =>
    match dictGetE nameVal.2 "type" with
    | .error e => .error e
    | .ok tv =>
      match tv with
      | .str "date" =>
        let handler := resolveDateHandler date_handlers nameVal.1 default_date_handler
        if handler = "ignore_end" then
          match tupleIndex extracted 0 with
          | .error e => .error e
          | .ok x => .ok (recInsert r (.name nameVal.1) x)
        else if handler = "mangle" then
          match tupleIndex extracted 0 with
          | .error e => .error e
          | .ok x =>
            match tupleIndex extracted 1 with
            | .error e => .error e
            | .ok y =>
              .ok (recInsert (recInsert r (.name (nameVal.1 ++ "_start")) x)
                    (.name (nameVal.1 ++ "_end")) y)
        else if handler = "multiindex" then
          match tupleIndex extracted 0 with
          | .error e => .error e
          | .ok x =>
            match tupleIndex extracted 1 with
            | .error e => .error e
            | .ok y =>
              .ok (recInsert (recInsert r (.pair nameVal.1 "start") x)
                    (.pair nameVal.1 "end") y)
        else .ok r
      | _ => .ok (recInsert r (.name nameVal.1) extracted)

/-- The `for property, value in page["properties"].items()` loop. -/
def foldProps (default_date_handler : String)
    (date_handlers : List (String × String)) :
    Record → List (String × PyVal) → Except PyErr Record
  | r, [] => .ok r
  | r, p :: ps =>
    match processProp default_date_handler date_handlers r p with
    | .error e => .error e
    | .ok r2 => foldProps default_date_handler date_handlers r2 ps

/-- `_page_to_simple_dict`: convert a Notion page object to a simple dict;
seeds the four reserved Notion-defined keys, then runs the property loop.
`date_handlers` defaults to the empty mapping when `None` is passed. -/
def _page_to_simple_dict (page : PyVal)
    (default_date_handler : String := "ignore_end")
    (date_handlers : Option (List (String × String)) := Option.none) :
    Except PyErr Record :=
  let dh := date_handlers.getD []
  match dictGetE page "id" with
  | .error e => .error e
  | .ok pid =>
  match dictGetE page "created_time" with
  | .error e => .error e
  | .ok ct =>
  match dictGetE page "last_edited_time" with
  | .error e => .error e
  | .ok lt =>
  match dictGetE page "url" with
  | .error e => .error e
  | .ok purl =>
  let r0 : Record :=
    [(.name "_notion_id", pid),
     (.name "_created_time", pdTimestamp ct),
     (.name "_last_edited_time", pdTimestamp lt),
     (.name "_notion_url", purl)]
  match dictGetE page "properties" with
  | .error e => .error e
  | .ok props =>
    match props with
    | .dict es => foldProps default_date_handler dh r0 es
    | _ => .error (.typeError "object has no attribute items")

/-- One response of the external paged source (`databases.query` /
`users.list`): the items, the `has_more` flag and the opaque cursor.  The
client collaborator is modelled as the sequence of responses its
successive calls return; the inter-request `sleep` has no semantic
content. -/
structure QueryResponse where
  results : List PyVal
  has_more : Bool
  next_cursor : PyVal
deriving Repr

/-- The pagination loop of `database_to_dataframe`: take the first
response's results, and while `has_more` keep appending the next
response's results. -/
def collectResultsDb : List QueryResponse → List PyVal
  | [] => []
  | r :: rs => r.results ++ (if r.has_more then collectResultsDb rs else [])

/-- The pagination loop of `users_to_dataframe` (textually duplicated in
the source). -/
def collectResultsUsers : List QueryResponse → List PyVal
  | [] => []
  | r :: rs => r.results ++ (if r.has_more then collectResultsUsers rs else [])

/-- The tabular output: column headers plus rows aligned with them.
Missing values are rendered as the marker `PyVal.none` (pandas `NaN`). -/
structure DataFrame where
  columns : List ColKey
  rows : List (List PyVal)
deriving Repr

/-- The ordered first-seen union of the keys of a batch of records —
`pd.DataFrame`'s column inference over a list of dicts. -/
def unionKeys (records : List Record) : List ColKey :=
  records.foldl
    (fun acc r => r.foldl
      (fun acc2 kv => if kv.1 ∈ acc2 then acc2 else acc2 ++ [kv.1]) acc)
    []

/-- `pd.DataFrame(records)` for a list of dict records: columns are the
first-seen union of keys; each row lists the record's value per column,
with the missing-value marker where the record lacks the key. -/
def pdDataFrame (records : List Record) : DataFrame :=
  let cols := unionKeys records
  ⟨cols, records.map (fun r => cols.map (fun c => (recLookup r c).getD PyVal.none))⟩

/-- `isinstance(col, tuple)`. -/
def isPair : ColKey → Bool
  | .name _ => false
  | .pair _ _ => true

/-- `col if isinstance(col, tuple) else (col, "")`. -/
def promoteKey : ColKey → ColKey
  | .name s => .pair s ""
  | .pair a b => .pair a b

/-- The hierarchical-header step of `database_to_dataframe`: if any column
is a tuple, rewrite every column as a tuple (plain names padded with an
empty sub-label); otherwise leave the columns unchanged. -/
def promoteCols (df : DataFrame) : DataFrame :=
  if df.columns.any isPair then ⟨df.columns.map promoteKey, df.rows⟩ else df

/-- `database_to_dataframe`: accumulate all pages of the database, convert
each page to a simplified dict, build the dataframe, and give it
hierarchical columns when any column key is a tuple. -/
def database_to_dataframe (responses : List QueryResponse)
    (default_date_handler : String := "ignore_end")
    (date_handlers : Option (List (String × String)) := Option.none) :
    Except PyErr DataFrame :=
  let results := collectResultsDb responses
  match mapExcept
      (fun page => _page_to_simple_dict page default_date_handler date_handlers)
      results with
  | .error e => .error e
  | .ok records => .ok (promoteCols (pdDataFrame records))

/-- `_user_to_simple_dict`: convert a Notion user object to a simple dict;
the `email` key is added only for `person`-typed users. -/
def _user_to_simple_dict (user : PyVal) : Except PyErr Record :=
  match dictGetE user "id" with
  | .error e => .error e
  | .ok uid =>
  match dictGetE user "type" with
  | .error e => .error e
  | .ok utype =>
  match dictGetE user "name" with
  | .error e => .error e
  | .ok uname =>
  match dictGetE user "avatar_url" with
  | .error e => .error e
  | .ok uavatar =>
  let r : Record :=
    [(.name "notion_id", uid), (.name "type", utype),
     (.name "name", uname), (.name "avatar_url", uavatar)]
  match utype with
  | .str "person" =>
    match dictGetE user "person" with
    | .error e => .error e
    | .ok person =>
      match dictGetE person "email" with
      | .error e => .error e
      | .ok email => .ok (recInsert r (.name "email") email)
  | _ => .ok r

/-- `users_to_dataframe`: accumulate all pages of users and build the
dataframe. -/
def users_to_dataframe (responses : List QueryResponse) :
    Except PyErr DataFrame :=
  match mapExcept _user_to_simple_dict (collectResultsUsers responses) with
  | .error e => .error e
  | .ok records => .ok (pdDataFrame records)

/-- Test fixture: a property value with the given type tag and payload,
`{"type": tag, tag: payload}`.  (Faithful as a Python dict literal whenever
`tag ≠ "type"`.) -/
def mkProp (tag : String) (payload : PyVal) : PyVal :=
  .dict [("type", .str tag), (tag, payload)]

/-- Test fixture: a date property value with the given start and optional
end. -/
def dateVal (s : String) (e : Option String) : PyVal :=
  mkProp "date"
    (.dict [("start", .str s),
            ("end", match e with | some t => .str t | Option.none => .none)])

/-- Test fixture: a rollup property value whose computation kind is
"array", over the given elements. -/
def mkRollupArray (xs : List PyVal) : PyVal :=
  mkProp "rollup" (.dict [("type", .str "array"), ("array", .list xs)])

/-- Test fixture: a formula property value whose computed result has the
given inner tag and payload. -/
def mkFormula (innerTag : String) (payload : PyVal) : PyVal :=
  mkProp "formula" (.dict [("type", .str innerTag), (innerTag, payload)])

/-- Test fixture: a page object with the given reserved fields and
property map. -/
def mkPage (pid ct lt u : PyVal) (props : List (String × PyVal)) : PyVal :=
  .dict [("id", pid), ("created_time", ct), ("last_edited_time", lt),
         ("url", u), ("properties", .dict props)]

/-- The four Notion-defined reserved keys `_page_to_simple_dict` seeds the
record with, for a page with the given field values. -/
def reservedSeed (pid ct lt u : PyVal) : Record :=
  [(.name "_notion_id", pid),
   (.name "_created_time", pdTimestamp ct),
   (.name "_last_edited_time", pdTimestamp lt),
   (.name "_notion_url", u)]

/-- The recognized date-handler policy strings. -/
def recognizedHandlers : List String := ["ignore_end", "mangle", "multiindex"]

/-- The closed set of property type tags the normalizer dispatches on. -/
def supportedTags : List String :=
  ["url", "email", "phone_number", "number", "created_time",
   "last_edited_time", "relation", "checkbox", "date", "created_by",
   "last_edited_by", "select", "multi_select", "people", "files", "title",
   "rich_text", "formula", "rollup"]

/-- Test fixture: a one-page database whose single page has one date
property, used to exercise the handler-validation claims. -/
def demoPage : PyVal :=
  mkPage (.str "p1") (.str "2021-01-01T00:00:00Z") (.str "2021-01-02T00:00:00Z")
    (.str "https://notion.so/p1") [("when", dateVal "2021-03-01" Option.none)]

/-- Test fixture: the single-response paged source returning `demoPage`. -/
def demoResponses : List QueryResponse := [⟨[demoPage], false, .none⟩]

/-- Test fixture: a page with one date property, for the header-promotion
batch. -/
def promoPage1 : PyVal :=
  mkPage (.str "p1") (.str "c1") (.str "l1") (.str "u1")
    [("when", dateVal "2021-03-01" (some "2021-03-05"))]

/-- Test fixture: a page with only a plain (number) property. -/
def promoPage2 : PyVal :=
  mkPage (.str "p2") (.str "c2") (.str "l2") (.str "u2")
    [("n", mkProp "number" (.int 7))]

/-- Test fixture: one response carrying both promotion-test pages. -/
def promoResponses : List QueryResponse := [⟨[promoPage1, promoPage2], false, .none⟩]

/-- The flat records the promotion batch produces (page one under the
multiindex policy for "when", page two plain). -/
def promoRecords : List Record :=
  [[(.name "_notion_id", .str "p1"),
    (.name "_created_time", .timestamp (some "c1")),
    (.name "_last_edited_time", .timestamp (some "l1")),
    (.name "_notion_url", .str "u1"),
    (.pair "when" "start", .timestamp (some "2021-03-01")),
    (.pair "when" "end", .timestamp (some "2021-03-05"))],
   [(.name "_notion_id", .str "p2"),
    (.name "_created_time", .timestamp (some "c2")),
    (.name "_last_edited_time", .timestamp (some "l2")),
    (.name "_notion_url", .str "u2"),
    (.name "n", .int 7)]]

/-- The table the promotion batch yields: every header a 2-tuple, plain
columns padded with an empty sub-label, missing cells marked. -/
def promoDF : DataFrame :=
  ⟨[.pair "_notion_id" "", .pair "_created_time" "",
    .pair "_last_edited_time" "", .pair "_notion_url" "",
    .pair "when" "start", .pair "when" "end", .pair "n" ""],
   [[.str "p1", .timestamp (some "c1"), .timestamp (some "l1"), .str "u1",
     .timestamp (some "2021-03-01"), .timestamp (some "2021-03-05"),
     PyVal.none],
    [.str "p2", .timestamp (some "c2"), .timestamp (some "l2"), .str "u2",
     PyVal.none, PyVal.none, .int 7]]⟩

/-- Test fixture: a three-page source (`has_more` = true, true, false). -/
def pageRespA : QueryResponse := ⟨[.int 1, .int 2], true, .str "c1"⟩

/-- Second response of the three-page source. -/
def pageRespB : QueryResponse := ⟨[.int 3], true, .str "c2"⟩

/-- Final response of the three-page source. -/
def pageRespC : QueryResponse := ⟨[.int 4, .int 5], false, .none⟩

theorem psize_pos (v : PyVal) : 1 ≤ psize v := by
  cases v <;> simp [psize]

theorem lookupEntries_psize {es : List (String × PyVal)} {k : String}
    {v : PyVal} (h : lookupEntries es k = some v) : psize v < psizeEntries es := by
  induction es with
  | nil => simp [lookupEntries] at h
  | cons kv rest ih =>
    obtain ⟨k2, v2⟩ := kv
    simp only [lookupEntries] at h
    by_cases hk : k2 = k
    · rw [if_pos hk] at h
      cases h
      simp only [psizeEntries]
      omega
    · rw [if_neg hk] at h
      have := ih h
      simp only [psizeEntries]
      omega

theorem dictGetE_psize {d : PyVal} {k : String} {v : PyVal}
    (h : dictGetE d k = .ok v) : psize v < psize d := by
  cases d <;> simp [dictGetE] at h
  next es =>
    cases hl : lookupEntries es k with
    | none => rw [hl] at h; simp at h
    | some w =>
      rw [hl] at h
      simp at h
      cases h
      have := lookupEntries_psize hl
      simp only [psize]
      omega

theorem psize_mem_list {x : PyVal} {xs : List PyVal} (h : x ∈ xs) :
    psize x < psizeList xs := by
  induction xs with
  | nil => cases h
  | cons y ys ih =>
    rcases List.mem_cons.mp h with h1 | h1
    · subst h1; simp only [psizeList]; omega
    · have := ih h1; simp only [psizeList]; omega

theorem mapExcept_congr {α β : Type} {f g : α → Except PyErr β}
    {xs : List α} (h : ∀ x ∈ xs, f x = g x) :
    mapExcept f xs = mapExcept g xs := by
  induction xs with
  | nil => rfl
  | cons x rest ih =>
    simp only [mapExcept]
    rw [h x (List.mem_cons_self x rest), ih (fun y hy => h y (List.mem_cons_of_mem x hy))]

theorem simplifyStep_congr {f g : PyVal → Except PyErr PyVal} {v : PyVal}
    (h : ∀ x, psize x < psize v → f x = g x) :
    simplifyStep f v = simplifyStep g v := by
  unfold simplifyStep
  cases h1 : dictGetE v "type" with
  | error e => rfl
  | ok tv =>
    dsimp only
    cases h2 : asStrE tv with
    | error e => rfl
    | ok type_ =>
      dsimp only
      cases h3 : dictGetE v type_ with
      | error e => rfl
      | ok obj =>
        dsimp only
        have hov : psize obj < psize v := dictGetE_psize h3
        -- peel the identical branches of the dispatch chain; only the
        -- rollup arm mentions the recursive call
        iterate 19 (refine if_congr Iff.rfl rfl ?_)
        refine if_congr Iff.rfl ?_ rfl
        cases h4 : dictGetE obj "type" with
        | error e => rfl
        | ok rt =>
          dsimp only
          have hort : psize rt < psize obj := dictGetE_psize h4
          cases rt with
          | str s =>
            dsimp only
            by_cases hs : s = "array"
            · rw [if_pos hs, if_pos hs]
              cases h5 : dictGetE obj "array" with
              | error e => rfl
              | ok arr =>
                dsimp only
                have hoar : psize arr < psize obj := dictGetE_psize h5
                cases arr with
                | list xs =>
                  dsimp only
                  have hm : mapExcept f xs = mapExcept g xs := by
                    apply mapExcept_congr
                    intro x hx
                    apply h
                    have h6 : psize x < psizeList xs := psize_mem_list hx
                    have h7 : psize (PyVal.list xs) = psizeList xs + 1 := rfl
                    omega
                  rw [hm]
                | none => rfl
                | bool b => rfl
                | int n => rfl
                | str t => rfl
                | timestamp t => rfl
                | tuple2 a b => rfl
                | dict es => rfl
            · rw [if_neg hs, if_neg hs]
          | none => rfl
          | bool b => rfl
          | int n => rfl
          | timestamp t => rfl
          | tuple2 a b => rfl
          | list xs => rfl
          | dict es => rfl

theorem simplifyF_mono :
    ∀ (fuel : Nat) (v : PyVal), psize v ≤ fuel →
      simplifyF fuel v = _simplify_notion_property_value v := by
  intro fuel
  induction fuel using Nat.strong_induction_on with
  | _ fuel ih =>
    intro v hv
    have hp : 1 ≤ psize v := psize_pos v
    obtain ⟨pf, hpf⟩ : ∃ pf, psize v = pf + 1 := ⟨psize v - 1, by omega⟩
    obtain ⟨f, rfl⟩ : ∃ f, fuel = f + 1 := ⟨fuel - 1, by omega⟩
    show simplifyStep (simplifyF f) v = _simplify_notion_property_value v
    have hr : _simplify_notion_property_value v = simplifyStep (simplifyF pf) v := by
      show simplifyF (psize v) v = simplifyStep (simplifyF pf) v
      rw [hpf]
      rfl
    rw [hr]
    apply simplifyStep_congr
    intro x hx
    have hx1 : psize x ≤ f := by omega
    have hx2 : psize x ≤ pf := by omega
    rw [ih f (by omega) x hx1, ih pf (by omega) x hx2]

/-- The normalizer satisfies its defining one-step unfolding: it is the
fixpoint of `simplifyStep`. -/
theorem simplify_fixpoint (v : PyVal) :
    _simplify_notion_property_value v
      = simplifyStep _simplify_notion_property_value v := by
  have hp : 1 ≤ psize v := psize_pos v
  obtain ⟨pf, hpf⟩ : ∃ pf, psize v = pf + 1 := ⟨psize v - 1, by omega⟩
  show simplifyF (psize v) v = _
  rw [hpf]
  show simplifyStep (simplifyF pf) v = _
  apply simplifyStep_congr
  intro x hx
  exact simplifyF_mono pf x (by omega)

/-- Normalizing a well-formed date property value yields the pair of the
tagged start timestamp and the (possibly null) tagged end timestamp. -/
theorem dateVal_simplify (s : String) (e : Option String) :
    _simplify_notion_property_value (dateVal s e)
      = .ok (.tuple2 (.timestamp (some s)) (.timestamp e)) := by
  cases e <;> rfl

/-- Appending the same string on the left is injective. -/
theorem append_right_cancel_str {d s1 s2 : String} (h : d ++ s1 = d ++ s2) :
    s1 = s2 := by
  have hd := congrArg String.data h
  simp only [String.data_append] at hd
  exact String.ext (List.append_cancel_left hd)

/-- A date-typed property whose resolved handler is not one of the three
recognized policy strings contributes nothing to the record and raises no
error. -/
theorem processProp_unrecognized (ddh : String) (dh : List (String × String))
    (r : Record) (d : String) (v : PyVal)
    (ht : dictGetE v "type" = .ok (.str "date"))
    (hs : ∃ x, _simplify_notion_property_value v = .ok x)
    (hh : resolveDateHandler dh d ddh ∉ recognizedHandlers) :
    processProp ddh dh r (d, v) = .ok r := by
  obtain ⟨x, hx⟩ := hs
  simp only [recognizedHandlers, List.mem_cons, List.not_mem_nil, or_false,
    not_or] at hh
  obtain ⟨h1, h2, h3⟩ := hh
  simp only [processProp, hx, ht]
  rw [if_neg h1, if_neg h2, if_neg h3]

/-- The property loop distributes over appending property lists. -/
theorem foldProps_append (ddh : String) (dh : List (String × String))
    (r : Record) (l1 l2 : List (String × PyVal)) :
    foldProps ddh dh r (l1 ++ l2)
      = match foldProps ddh dh r l1 with
        | .error e => .error e
        | .ok r2 => foldProps ddh dh r2 l2 := by
  induction l1 generalizing r with
  | nil => rfl
  | cons p ps ih =>
    simp only [List.cons_append, foldProps]
    cases processProp ddh dh r p with
    | error e => rfl
    | ok r2 => exact ih r2

/-- A successful fallible map preserves the list length. -/
theorem mapExcept_length {α β : Type} {f : α → Except PyErr β} :
    ∀ {xs : List α} {ys : List β}, mapExcept f xs = .ok ys → ys.length = xs.length := by
  intro xs
  induction xs with
  | nil => intro ys h; simp only [mapExcept] at h; cases h; rfl
  | cons x rest ih =>
    intro ys h
    simp only [mapExcept] at h
    cases hf : f x with
    | error e => rw [hf] at h; cases h
    | ok y =>
      rw [hf] at h
      cases hm : mapExcept f rest with
      | error e => rw [hm] at h; cases h
      | ok ys2 =>
        rw [hm] at h
        cases h
        simp [ih hm]

/-- The two textually duplicated pagination loops are the same function. -/
theorem collectResultsUsers_eq_db :
    ∀ l : List QueryResponse, collectResultsUsers l = collectResultsDb l := by
  intro l
  induction l with
  | nil => rfl
  | cons r rs ih => simp only [collectResultsUsers, collectResultsDb, ih]

/-- Header promotion never touches the rows. -/
theorem promoteCols_rows (d : DataFrame) : (promoteCols d).rows = d.rows := by
  unfold promoteCols
  by_cases h : d.columns.any isPair
  · rw [if_pos h]
  · rw [if_neg h]

/-- A promoted key is always a 2-tuple. -/
theorem isPair_promoteKey (c : ColKey) : isPair (promoteKey c) = true := by
  cases c <;> rfl

/-- Claim C7: for every supported type tag, normalizing a property value
whose payload is null returns null and never raises; the null check is
performed before any type-specific dispatch (in particular it also fires
for the recursive `formula` and `rollup` tags). -/
theorem null_payload_normalizes_to_null :
    ∀ tag ∈ supportedTags,
      _simplify_notion_property_value (mkProp tag PyVal.none)
        = .ok PyVal.none := by
  intro tag h
  fin_cases h <;> rfl

/-- Witness for C7 at the tag "url". -/
theorem null_payload_normalizes_to_null_witness :
    _simplify_notion_property_value (mkProp "url" PyVal.none)
      = .ok PyVal.none :=
  null_payload_normalizes_to_null "url" (by decide)

/-- Claim C8: a property value whose type tag is outside the recognized
closed set and whose payload is not null fails with the unsupported-type
error carrying the offending tag name.  (The tag "type" is excluded only
because `mkProp "type" payload` is not expressible as a Python dict.) -/
theorem unsupported_tag_raises (tag : String) (payload : PyVal)
    (hmem : tag ∉ supportedTags) (htype : tag ≠ "type")
    (hnn : isNone payload = false) :
    _simplify_notion_property_value (mkProp tag payload)
      = .error (.valueError ("I don't understand type " ++ tag)) := by
  simp only [supportedTags, List.mem_cons, List.not_mem_nil, or_false,
    not_or] at hmem
  obtain ⟨h1, h2, h3, h4, h5, h6, h7, h8, h9, h10, h11, h12, h13, h14, h15,
    h16, h17, h18, h19⟩ := hmem
  rw [simplify_fixpoint]
  simp [simplifyStep, mkProp, dictGetE, lookupEntries, asStrE, subscriptE,
    hnn, Ne.symm htype, h1, h2, h3, h4, h5, h6, h7, h8, h9, h10, h11, h12,
    h13, h14, h15, h16, h17, h18, h19]

/-- Witness for C8 at the unrecognized tag "status". -/
theorem unsupported_tag_raises_witness :
    _simplify_notion_property_value (mkProp "status" (.str "In progress"))
      = .error (.valueError "I don't understand type status") :=
  unsupported_tag_raises "status" (.str "In progress") (by decide) (by decide)
    (by decide)

/-- Claim C9: a rollup property of computation kind "array" normalizes to
the list obtained by applying the normalizer recursively to every element
with its own type tag; in particular a rollup of three date elements
yields the list of their three (start, end) timestamp pairs. -/
theorem rollup_array_recursively_normalizes :
    (∀ xs : List PyVal,
      _simplify_notion_property_value (mkRollupArray xs)
        = (mapExcept _simplify_notion_property_value xs).map PyVal.list)
    ∧ ∀ s1 s2 s3 : String, ∀ e1 e2 e3 : Option String,
        _simplify_notion_property_value
            (mkRollupArray [dateVal s1 e1, dateVal s2 e2, dateVal s3 e3])
          = .ok (.list
              [.tuple2 (.timestamp (some s1)) (.timestamp e1),
               .tuple2 (.timestamp (some s2)) (.timestamp e2),
               .tuple2 (.timestamp (some s3)) (.timestamp e3)]) := by
  have main : ∀ xs : List PyVal,
      _simplify_notion_property_value (mkRollupArray xs)
        = (mapExcept _simplify_notion_property_value xs).map PyVal.list := by
    intro xs
    have hsz : psize (mkRollupArray xs) = psizeList xs + 9 := by
      simp [mkRollupArray, mkProp, psize, psizeEntries, psizeList]
      omega
    show simplifyF (psize (mkRollupArray xs)) (mkRollupArray xs) = _
    rw [hsz]
    have h1 : simplifyF (psizeList xs + 9) (mkRollupArray xs)
        = (mapExcept (simplifyF (psizeList xs + 8)) xs).map PyVal.list := rfl
    rw [h1]
    have h2 : mapExcept (simplifyF (psizeList xs + 8)) xs
        = mapExcept _simplify_notion_property_value xs := by
      apply mapExcept_congr
      intro x hx
      exact simplifyF_mono _ x (by have := psize_mem_list hx; omega)
    rw [h2]
  refine ⟨main, ?_⟩
  intro s1 s2 s3 e1 e2 e3
  rw [main]
  simp only [mapExcept, dateVal_simplify]
  rfl

/-- Claim C10: a date property value with a non-null payload normalizes to
the pair of the parsed start timestamp and the parsed end timestamp, where
an absent end gives the null timestamp (`pd.Timestamp(None)` = `NaT`,
modelled as `.timestamp none`); normalization never fails on an absent
end. -/
theorem date_normalizes_to_start_end_pair (s : String) (e : Option String) :
    _simplify_notion_property_value (dateVal s e)
      = .ok (.tuple2 (.timestamp (some s)) (.timestamp e)) := by
  cases e <;> rfl

/-- Counterexample to claim C1: a formula whose computed value is
date-typed does NOT normalize like the corresponding plain date property:
the source returns the raw inner payload `obj[obj["type"]]` without
recursing into the normalizer. -/
theorem formula_wrapping_not_transparent :
    _simplify_notion_property_value
        (mkFormula "date"
          (.dict [("start", .str "2021-01-01"), ("end", PyVal.none)]))
      ≠ _simplify_notion_property_value
        (mkProp "date"
          (.dict [("start", .str "2021-01-01"), ("end", PyVal.none)])) := by
  have hl : _simplify_notion_property_value
      (mkFormula "date"
        (.dict [("start", .str "2021-01-01"), ("end", PyVal.none)]))
      = .ok (.dict [("start", .str "2021-01-01"), ("end", PyVal.none)]) := rfl
  have hr : _simplify_notion_property_value
      (mkProp "date"
        (.dict [("start", .str "2021-01-01"), ("end", PyVal.none)]))
      = .ok (.tuple2 (.timestamp (some "2021-01-01"))
          (.timestamp Option.none)) := rfl
  rw [hl, hr]
  simp

/-- Claim C1 as amended: normalizing a formula-typed property returns the
formula's inner computed payload as-is, with no recursive normalization;
this coincides with normalizing the inner (tag, value) pair only when that
normalization is the identity (e.g. a number), not for date-typed
results. -/
theorem formula_returns_raw_computed_payload (innerTag : String)
    (payload : PyVal) (h : innerTag ≠ "type") :
    _simplify_notion_property_value (mkFormula innerTag payload)
      = .ok payload := by
  have h1 : _simplify_notion_property_value (mkFormula innerTag payload)
      = dictGetE (.dict [("type", .str innerTag), (innerTag, payload)])
          innerTag := rfl
  rw [h1]
  simp [dictGetE, lookupEntries, Ne.symm h]

/-- Witness for the amended C1 at a number-typed formula. -/
theorem formula_returns_raw_computed_payload_witness :
    _simplify_notion_property_value (mkFormula "number" (.int 5))
      = .ok (.int 5) :=
  formula_returns_raw_computed_payload "number" (.int 5) (by decide)

/-- Counterexample to claim C2: calling the database extraction entry
point with the unrecognized handler string "bogus" does not fail at all —
no configuration validation exists — it fetches and returns a table (with
the date property silently dropped). -/
theorem invalid_handler_still_succeeds :
    database_to_dataframe demoResponses "bogus" Option.none
      = .ok ⟨[.name "_notion_id", .name "_created_time",
              .name "_last_edited_time", .name "_notion_url"],
             [[.str "p1", .timestamp (some "2021-01-01T00:00:00Z"),
               .timestamp (some "2021-01-02T00:00:00Z"),
               .str "https://notion.so/p1"]]⟩ := rfl

/-- Claim C2 as amended: for every handler string outside the recognized
set, the database extraction entry point raises no configuration error;
the extraction proceeds and date-typed properties resolved to that handler
are silently omitted from the output. -/
theorem unrecognized_handler_no_failure (handler : String)
    (hh : handler ∉ recognizedHandlers) :
    database_to_dataframe demoResponses handler Option.none
      = .ok ⟨[.name "_notion_id", .name "_created_time",
              .name "_last_edited_time", .name "_notion_url"],
             [[.str "p1", .timestamp (some "2021-01-01T00:00:00Z"),
               .timestamp (some "2021-01-02T00:00:00Z"),
               .str "https://notion.so/p1"]]⟩ := by
  have key : _page_to_simple_dict demoPage handler Option.none
      = .ok (reservedSeed (.str "p1") (.str "2021-01-01T00:00:00Z")
          (.str "2021-01-02T00:00:00Z") (.str "https://notion.so/p1")) := by
    show foldProps handler []
        (reservedSeed (.str "p1") (.str "2021-01-01T00:00:00Z")
          (.str "2021-01-02T00:00:00Z") (.str "https://notion.so/p1"))
        [("when", dateVal "2021-03-01" Option.none)] = _
    simp only [foldProps,
      processProp_unrecognized handler [] _ "when"
        (dateVal "2021-03-01" Option.none) rfl ⟨_, dateVal_simplify _ _⟩ hh]
  show (match mapExcept
      (fun page => _page_to_simple_dict page handler Option.none)
      (collectResultsDb demoResponses) with
    | Except.error e => (Except.error e : Except PyErr DataFrame)
    | Except.ok records => Except.ok (promoteCols (pdDataFrame records))) = _
  rw [show collectResultsDb demoResponses = [demoPage] from rfl]
  simp only [mapExcept, key]
  rfl

/-- Witness for the amended C2 at the handler string "bogus". -/
theorem unrecognized_handler_no_failure_witness :
    database_to_dataframe demoResponses "bogus" Option.none
      = .ok ⟨[.name "_notion_id", .name "_created_time",
              .name "_last_edited_time", .name "_notion_url"],
             [[.str "p1", .timestamp (some "2021-01-01T00:00:00Z"),
               .timestamp (some "2021-01-02T00:00:00Z"),
               .str "https://notion.so/p1"]]⟩ :=
  unrecognized_handler_no_failure "bogus" (by decide)

/-- Claim C3: a date-typed property whose resolved handler string is
unrecognized is silently dropped by the flattener — the loop step returns
the record unchanged and raises no error, so the page flattens exactly as
if the property were absent, with all other properties and the four
reserved keys emitted as usual. -/
theorem unrecognized_handler_drops_date_property (pid ct lt u : PyVal)
    (es1 es2 : List (String × PyVal)) (d : String) (v : PyVal) (ddh : String)
    (dhs : Option (List (String × String)))
    (ht : dictGetE v "type" = .ok (.str "date"))
    (hs : ∃ x, _simplify_notion_property_value v = .ok x)
    (hh : resolveDateHandler (dhs.getD []) d ddh ∉ recognizedHandlers) :
    (∀ r, processProp ddh (dhs.getD []) r (d, v) = .ok r)
    ∧ _page_to_simple_dict (mkPage pid ct lt u (es1 ++ (d, v) :: es2)) ddh dhs
      = _page_to_simple_dict (mkPage pid ct lt u (es1 ++ es2)) ddh dhs := by
  refine ⟨fun r => processProp_unrecognized ddh (dhs.getD []) r d v ht hs hh, ?_⟩
  show foldProps ddh (dhs.getD []) (reservedSeed pid ct lt u)
      (es1 ++ (d, v) :: es2)
    = foldProps ddh (dhs.getD []) (reservedSeed pid ct lt u) (es1 ++ es2)
  rw [foldProps_append, foldProps_append]
  cases foldProps ddh (dhs.getD []) (reservedSeed pid ct lt u) es1 with
  | error e => rfl
  | ok r2 =>
    dsimp only
    simp only [foldProps,
      processProp_unrecognized ddh (dhs.getD []) r2 d v ht hs hh]

/-- Witness for C3: under the handler "bogus", a page with a number
property and a date property flattens like the page without the date
property. -/
theorem unrecognized_handler_drops_date_property_witness :
    _page_to_simple_dict
        (mkPage (.str "p") (.str "c") (.str "l") (.str "u")
          [("a", mkProp "number" (.int 1)),
           ("when", dateVal "2021-03-01" Option.none)]) "bogus" Option.none
      = _page_to_simple_dict
        (mkPage (.str "p") (.str "c") (.str "l") (.str "u")
          [("a", mkProp "number" (.int 1))]) "bogus" Option.none :=
  (unrecognized_handler_drops_date_property (.str "p") (.str "c") (.str "l")
    (.str "u") [("a", mkProp "number" (.int 1))] [] "when"
    (dateVal "2021-03-01" Option.none) "bogus" Option.none rfl
    ⟨_, dateVal_simplify _ _⟩ (by decide)).2

/-- Claim C4: for a record with a date property d normalized to (T1, T2),
the resolved policy "ignore_end" emits d ↦ T1 only, "mangle" emits
d_start ↦ T1 and d_end ↦ T2, and "multiindex" emits (d,"start") ↦ T1 and
(d,"end") ↦ T2; the per-name override in the handler mapping takes
precedence over the default policy.  (The non-collision hypotheses exclude
property names that coincide with the reserved keys, where Python's dict
assignment would overwrite instead of append.) -/
theorem date_policy_roundtrip (pid ct lt u : PyVal) (d : String)
    (v T1 T2 : PyVal) (ddh : String) (dhs : Option (List (String × String)))
    (hv : _simplify_notion_property_value v = .ok (.tuple2 T1 T2))
    (ht : dictGetE v "type" = .ok (.str "date"))
    (hd : d ∉ ["_notion_id", "_created_time", "_last_edited_time", "_notion_url"])
    (hd1 : d ++ "_start"
      ∉ ["_notion_id", "_created_time", "_last_edited_time", "_notion_url"])
    (hd2 : d ++ "_end"
      ∉ ["_notion_id", "_created_time", "_last_edited_time", "_notion_url"]) :
    (resolveDateHandler (dhs.getD []) d ddh = "ignore_end" →
      _page_to_simple_dict (mkPage pid ct lt u [(d, v)]) ddh dhs
        = .ok (reservedSeed pid ct lt u ++ [(.name d, T1)]))
    ∧ (resolveDateHandler (dhs.getD []) d ddh = "mangle" →
      _page_to_simple_dict (mkPage pid ct lt u [(d, v)]) ddh dhs
        = .ok (reservedSeed pid ct lt u
            ++ [(.name (d ++ "_start"), T1), (.name (d ++ "_end"), T2)]))
    ∧ (resolveDateHandler (dhs.getD []) d ddh = "multiindex" →
      _page_to_simple_dict (mkPage pid ct lt u [(d, v)]) ddh dhs
        = .ok (reservedSeed pid ct lt u
            ++ [(.pair d "start", T1), (.pair d "end", T2)]))
    ∧ (∀ hov, lookupEntries (dhs.getD []) d = some hov →
        resolveDateHandler (dhs.getD []) d ddh = hov) := by
  simp only [List.mem_cons, List.not_mem_nil, or_false, not_or] at hd hd1 hd2
  obtain ⟨ha, hb, hc, he⟩ := hd
  obtain ⟨ha1, hb1, hc1, he1⟩ := hd1
  obtain ⟨ha2, hb2, hc2, he2⟩ := hd2
  have hse : d ++ "_end" ≠ d ++ "_start" := by
    intro hcon
    have := append_right_cancel_str hcon
    simp at this
  refine ⟨?_, ?_, ?_, ?_⟩
  · intro hr
    show foldProps ddh (dhs.getD []) (reservedSeed pid ct lt u) [(d, v)] = _
    simp only [foldProps, processProp, hv, ht, hr]
    simp only [reduceIte]
    simp [recInsert, reservedSeed, tupleIndex, ha, hb, hc, he, foldProps]
  · intro hr
    show foldProps ddh (dhs.getD []) (reservedSeed pid ct lt u) [(d, v)] = _
    simp only [foldProps, processProp, hv, ht, hr]
    simp only [reduceIte]
    simp [recInsert, reservedSeed, tupleIndex, ha1, hb1, hc1, he1, ha2, hb2,
      hc2, he2, hse, foldProps]
  · intro hr
    show foldProps ddh (dhs.getD []) (reservedSeed pid ct lt u) [(d, v)] = _
    simp only [foldProps, processProp, hv, ht, hr]
    simp only [reduceIte]
    simp [recInsert, reservedSeed, tupleIndex, foldProps]
  · intro hov hl
    simp [resolveDateHandler, hl]

/-- Witness for C4: the per-name multiindex override beats the ignore_end
default and produces the two tuple-keyed entries. -/
theorem date_policy_roundtrip_witness :
    _page_to_simple_dict
        (mkPage (.str "p") (.str "c") (.str "l") (.str "u")
          [("when", dateVal "2021-03-01" (some "2021-03-05"))])
        "ignore_end" (some [("when", "multiindex")])
      = .ok (reservedSeed (.str "p") (.str "c") (.str "l") (.str "u")
          ++ [(.pair "when" "start", .timestamp (some "2021-03-01")),
              (.pair "when" "end", .timestamp (some "2021-03-05"))]) :=
  (date_policy_roundtrip (.str "p") (.str "c") (.str "l") (.str "u") "when"
    (dateVal "2021-03-01" (some "2021-03-05"))
    (PyVal.timestamp (some "2021-03-01")) (PyVal.timestamp (some "2021-03-05"))
    "ignore_end" (some [("when", "multiindex")]) (dateVal_simplify _ _) rfl
    (by decide) (by decide) (by decide)).2.2.1 rfl

/-- Claim C5: the output table's headers are decided over the whole batch
after flattening: when any produced column key is a 2-tuple, every header
becomes a 2-tuple with plain names promoted to (name, ""); when none is,
all headers stay plain. -/
theorem header_promotion_batchwide (responses : List QueryResponse)
    (ddh : String) (dhs : Option (List (String × String)))
    (records : List Record) (df : DataFrame)
    (hrec : mapExcept (fun page => _page_to_simple_dict page ddh dhs)
        (collectResultsDb responses) = .ok records)
    (hdf : database_to_dataframe responses ddh dhs = .ok df) :
    ((unionKeys records).any isPair = true →
      df.columns = (unionKeys records).map promoteKey
      ∧ ∀ c ∈ df.columns, isPair c = true)
    ∧ ((unionKeys records).any isPair = false →
      df.columns = unionKeys records) := by
  simp only [database_to_dataframe] at hdf
  rw [hrec] at hdf
  have hdf2 : df = promoteCols (pdDataFrame records) := by cases hdf; rfl
  subst hdf2
  have hcols : (pdDataFrame records).columns = unionKeys records := rfl
  constructor
  · intro hany
    have hp : promoteCols (pdDataFrame records)
        = ⟨(unionKeys records).map promoteKey, (pdDataFrame records).rows⟩ := by
      unfold promoteCols
      rw [hcols, if_pos hany]
    rw [hp]
    refine ⟨rfl, ?_⟩
    intro c hc
    obtain ⟨c2, _, rfl⟩ := List.mem_map.mp hc
    exact isPair_promoteKey c2
  · intro hnone
    have hp : promoteCols (pdDataFrame records) = pdDataFrame records := by
      unfold promoteCols
      rw [hcols, if_neg (by rw [hnone]; exact Bool.false_ne_true)]
    rw [hp, hcols]

/-- Witness for C5: in a batch mixing one multiindex-policy date page with
one plain page, every header of the output is a 2-tuple, plain columns
padded with the empty sub-label. -/
theorem header_promotion_batchwide_witness :
    promoDF.columns = (unionKeys promoRecords).map promoteKey
    ∧ ∀ c ∈ promoDF.columns, isPair c = true :=
  (header_promotion_batchwide promoResponses "ignore_end"
    (some [("when", "multiindex")]) promoRecords promoDF rfl rfl).1 rfl

/-- Claim C6: when the first n-1 responses carry `has_more` = true and the
n-th carries false, both pagination loops return the concatenation of all
pages' items in arrival order, and the output table's row count equals the
sum of the page sizes. -/
theorem pagination_concatenates_all_pages (ps : List QueryResponse)
    (lastR : QueryResponse) (hmore : ∀ r ∈ ps, r.has_more = true)
    (hlast : lastR.has_more = false) :
    collectResultsDb (ps ++ [lastR])
        = ((ps ++ [lastR]).map QueryResponse.results).flatten
    ∧ collectResultsUsers (ps ++ [lastR])
        = ((ps ++ [lastR]).map QueryResponse.results).flatten
    ∧ (∀ ddh dhs df, database_to_dataframe (ps ++ [lastR]) ddh dhs = .ok df →
        df.rows.length
          = (((ps ++ [lastR]).map QueryResponse.results).map List.length).sum) := by
  have hdb : collectResultsDb (ps ++ [lastR])
      = ((ps ++ [lastR]).map QueryResponse.results).flatten := by
    induction ps with
    | nil => simp [collectResultsDb, hlast]
    | cons r rs ih =>
      have hr : r.has_more = true := hmore r (List.mem_cons_self r rs)
      have ih2 := ih (fun x hx => hmore x (List.mem_cons_of_mem r hx))
      simp only [List.cons_append, collectResultsDb, hr, reduceIte,
        List.map_cons, List.append_eq]
      rw [ih2]
      simp
  refine ⟨hdb, by rw [collectResultsUsers_eq_db]; exact hdb, ?_⟩
  intro ddh dhs df hdf
  simp only [database_to_dataframe] at hdf
  cases hm : mapExcept (fun page => _page_to_simple_dict page ddh dhs)
      (collectResultsDb (ps ++ [lastR])) with
  | error e => rw [hm] at hdf; cases hdf
  | ok records =>
    rw [hm] at hdf
    have hdf2 : promoteCols (pdDataFrame records) = df := by
      cases hdf; rfl
    rw [← hdf2, promoteCols_rows]
    have h1 : (pdDataFrame records).rows.length = records.length := by
      simp [pdDataFrame]
    rw [h1, mapExcept_length hm, hdb]
    simp [List.length_flatten]

/-- Witness for C6 at a concrete three-page source. -/
theorem pagination_concatenates_all_pages_witness :
    collectResultsDb [pageRespA, pageRespB, pageRespC]
      = [.int 1, .int 2, .int 3, .int 4, .int 5] :=
  (pagination_concatenates_all_pages [pageRespA, pageRespB] pageRespC
    (by decide) rfl).1

end NotionTools
